import Mathlib

/-!
Verification of the DIPU caching-allocator core
(`torch_dipu/csrc_dipu/runtime/core/allocator/DIPUCachingAllocator_fdy.cpp`):
the algorithm registry (`setAllocator`), the per-device allocator cache
(`getAllocator` / `createAllocator`), the global sweeps (`emptyCachedMem`,
`releaseAllDeviceMem`), the stream-recording entry point (`recordStream`)
and the stream-ordering proxy (`DIPUDeviceCachingProxy::allocate`).
-/

namespace DIPUAlloc

/-- The device classes relevant to the allocator core: the DIPU accelerator
device class (`dipu::DIPU_DEVICE_TYPE`), the CPU class used for pinned host
memory, and CUDA (impersonated during init). -/
inductive DeviceType where
  | dipu
  | cpu
  | cuda
deriving DecidableEq, Repr

/-- `dipu::DIPU_DEVICE_TYPE`, the accelerator device class. -/
def DIPU_DEVICE_TYPE : DeviceType := DeviceType.dipu

/-- `c10::Device`: a device class plus an optional device index
(`c10::Device(device_type)` carries no index). -/
structure Device where
  dtype : DeviceType
  index : Option Nat
deriving DecidableEq, Repr

/-- An allocator object as seen through its `c10::Allocator*` pointer.
`ptr` models the pointer identity; `cls` is the device class the allocator
was created for (the `device_type` that `createAllocator` was resolving when
it invoked the registered constructor). -/
structure Allocator where
  ptr : Nat
  cls : DeviceType
deriving DecidableEq, Repr

/-- One registry entry: the registered constructor
(`std::function<c10::Allocator*(int)>`, here device index ↦ allocator
pointer) and its priority (`uint8_t`, modelled as its numeric value). -/
structure AlgorithmEntry where
  getter : Nat → Nat
  priority : Nat

/-- `RegisteredAllocator`: map device-class → map algorithm-name → entry. -/
def Registry := DeviceType → String → Option AlgorithmEntry

/-- Point update of the registry map (what
`gDIPURegisteredAllocator[device_type][name] = ...` does). -/
def Registry.update (reg : Registry) (device_type : DeviceType) (name : String)
    (e : AlgorithmEntry) : Registry :=
  fun dt nm => if dt = device_type ∧ nm = name then some e else reg dt nm

/-- The empty registry (freshly constructed `RegisteredAllocator`). -/
def Registry.empty : Registry := fun _ _ => none

/-- Errors raised via `TORCH_CHECK(false, ...)` in the allocator core.
`conflict` carries the data the `setAllocator` message prints
(device type, name, priority); `noAllocatorFound` carries the data the
`createAllocator` message prints (device type, configured device
algorithm name). -/
inductive AllocError where
  | conflict (device : DeviceType) (name : String) (priority : Nat)
  | noAllocatorFound (device : DeviceType) (algorithm : String)
deriving DecidableEq, Repr

/-- `setAllocator(name, device_type, allocator_getter, priority)`:
insert the entry if the name is absent; replace it if the new priority is
strictly higher; otherwise fail with `TORCH_CHECK(false, "A higher priority
allocator is already registered for the same device:", device_type, name,
priority)`. -/
def setAllocator (reg : Registry) (name : String) (device_type : DeviceType)
    (allocator_getter : Nat → Nat) (priority : Nat) :
    Except AllocError Registry :=
  match reg device_type name with
  | none => Except.ok (reg.update device_type name ⟨allocator_getter, priority⟩)
  | some entry =>
      if entry.priority < priority then
        Except.ok (reg.update device_type name ⟨allocator_getter, priority⟩)
      else
        Except.error (AllocError.conflict device_type name priority)

/-- Process-wide configuration consumed by the allocator core:
`devproxy::getDeviceCount()`, `devproxy::current_device()`, and the two
lazily-resolved algorithm-name strings `dipu_device_memcaching_algorithm`
and `dipu_host_memcaching_algorithm`. -/
structure Config where
  device_count : Nat
  current_device : Nat
  device_memcaching_algorithm : String
  host_memcaching_algorithm : String

/-- `getDeviceIndex(device, host_index)`: CPU devices use `host_index`;
an accelerator device uses its explicit index when it has one, otherwise
`devproxy::current_device()`. -/
def getDeviceIndex (cfg : Config) (device : Device) (host_index : Nat) : Nat :=
  if device.dtype = DeviceType.cpu then host_index
  else
    match device.index with
    | some i => i
    | none => cfg.current_device

/-- The algorithm name `createAllocator` selects for a device class. -/
def algorithmFor (cfg : Config) (device_type : DeviceType) : String :=
  if device_type = DIPU_DEVICE_TYPE then cfg.device_memcaching_algorithm
  else cfg.host_memcaching_algorithm

/-- `std::set<c10::Allocator*>::insert`. -/
def insertUsed (a : Allocator) (l : List Allocator) : List Allocator :=
  if a ∈ l then l else a :: l

/-- The mutable global state of the allocator core:
`gDIPURegisteredAllocatorPtr`, `used_allocator`, and the static
`allocator_lookup_table` inside `getAllocator` (slot `i` for device index
`i`, slot `device_count` for the host allocator; slots start empty and are
filled on first use). -/
structure AllocState where
  registry : Registry
  used_allocator : List Allocator
  lookup_table : Nat → Option Allocator

/-- The state at process start: empty registry, empty used set, all lookup
slots empty. -/
def initAllocState : AllocState :=
  { registry := Registry.empty
    used_allocator := []
    lookup_table := fun _ => none }

/-- `createAllocator(device)`: select the algorithm name for the device
class, look it up in the registry, invoke the registered constructor with
the resolved device index (host index 0 on this path), insert the result
into `used_allocator` when the class is the accelerator class, and return
it; fail with `TORCH_CHECK(false, "No allocator found for the device using
the given algorithm:", device_type, dipu_device_memcaching_algorithm)` when
the name has no entry. -/
def createAllocator (cfg : Config) (s : AllocState) (device : Device) :
    Except AllocError (Allocator × AllocState) :=
  match s.registry device.dtype (algorithmFor cfg device.dtype) with
  | some entry =>
      if device.dtype = DIPU_DEVICE_TYPE then
        Except.ok (⟨entry.getter (getDeviceIndex cfg device 0), device.dtype⟩,
          { s with used_allocator :=
              (insertUsed ⟨entry.getter (getDeviceIndex cfg device 0), device.dtype⟩
                s.used_allocator) })
      else
        Except.ok (⟨entry.getter (getDeviceIndex cfg device 0), device.dtype⟩, s)
  | none =>
      Except.error
        (AllocError.noAllocatorFound device.dtype cfg.device_memcaching_algorithm)

/-- `getAllocator(device)`: compute the lookup slot
(`getDeviceIndex(device, host_index)` with `host_index = device_count`),
return the memoized allocator when the slot is filled, otherwise create one
via `createAllocator` and store it in the slot. -/
def getAllocator (cfg : Config) (s : AllocState) (device : Device) :
    Except AllocError (Allocator × AllocState) :=
  match s.lookup_table (getDeviceIndex cfg device cfg.device_count) with
  | some allocator => Except.ok (allocator, s)
  | none =>
      match createAllocator cfg s device with
      | Except.ok (allocator, s1) =>
          Except.ok (allocator,
            { s1 with lookup_table := fun i =>
                if i = getDeviceIndex cfg device cfg.device_count then some allocator
                else s1.lookup_table i })
      | Except.error e => Except.error e

/-- A failure inside one allocator's trim/release operation. The concrete
`CacheAllocator` implementations are outside this translation unit; per the
spec, sweeps discard any per-allocator failure signal and continue. -/
inductive TrimError where
  | failure (code : Nat)
deriving DecidableEq, Repr

/-- `emptyCachedMem()`: iterate `used_allocator`; for each element, the
body casts to `CacheAllocator*` (here the oracle `isCacheAlloc` on the
pointer) and, when the cast succeeds, invokes `empty_cache()` (here
`empty_cache`, whose outcome is returned to nobody: the loop continues
regardless). The result is the ordered list of (allocator, outcome) pairs
for the invocations actually performed. -/
def emptyCachedMem (isCacheAlloc : Nat → Bool)
    (empty_cache : Nat → Except TrimError Unit)
    (used_allocator : List Allocator) :
    List (Allocator × Except TrimError Unit) :=
  used_allocator.filterMap fun a =>
    if isCacheAlloc a.ptr then some (a, empty_cache a.ptr) else none

/-- `releaseAllDeviceMem()`: same sweep shape as `emptyCachedMem`, invoking
`release_all_memory()` on each castable element of `used_allocator`. -/
def releaseAllDeviceMem (isCacheAlloc : Nat → Bool)
    (release_all_memory : Nat → Except TrimError Unit)
    (used_allocator : List Allocator) :
    List (Allocator × Except TrimError Unit) :=
  used_allocator.filterMap fun a =>
    if isCacheAlloc a.ptr then some (a, release_all_memory a.ptr) else none

/-- A DIPU execution stream handle. -/
structure DIPUStream where
  id : Nat
deriving DecidableEq, Repr

/-- `CacheAllocator::DataPtrContextBase`: the per-allocation context a
`c10::DataPtr` may carry; `streams()` is its recorded-streams set. -/
structure DataPtrCtx where
  streams : List DIPUStream
deriving DecidableEq, Repr

/-- Set insertion into a recorded-streams set. -/
def insertStream (st : DIPUStream) (l : List DIPUStream) : List DIPUStream :=
  if st ∈ l then l else st :: l

/-- `recordStream(ptr, stream)`: when the data pointer carries a context
(`ptr.get_context() != nullptr`), insert `stream` into its recorded-streams
set; when the context is null, do nothing. Returns the (possibly updated)
context of the data pointer. -/
def recordStream (ctx : Option DataPtrCtx) (stream : DIPUStream) :
    Option DataPtrCtx :=
  match ctx with
  | some c => some { c with streams := insertStream stream c.streams }
  | none => none

/-- The stream synchronization primitives the proxy issues:
`event.record(stream)` and `event.wait(stream)`. -/
inductive SyncAction where
  | record (stream : DIPUStream)
  | wait (stream : DIPUStream)
deriving DecidableEq, Repr

/-- Result of `DIPUDeviceCachingProxy::allocate(size)`: the event
record/wait actions it issued, in order, and the delegated call — which
allocator (resolved through `getAllocator` on a bare `c10::Device` of the
proxy's device type) was asked for how many bytes, with the resulting
global state. -/
structure ProxyAllocateResult where
  sync_actions : List SyncAction
  delegated : Except AllocError ((Allocator × Nat) × AllocState)

/-- `DIPUDeviceCachingProxy::allocate(size)`: read the current and default
streams; when they differ, record an event on the default stream and make
the current stream wait on it; then delegate to
`getAllocator(device_type_)->allocate(size)`. -/
def DIPUDeviceCachingProxy.allocate (device_type : DeviceType)
    (currentStream defaultStream : DIPUStream) (cfg : Config)
    (s : AllocState) (size : Nat) : ProxyAllocateResult :=
  let actions :=
    if currentStream ≠ defaultStream then
      [SyncAction.record defaultStream, SyncAction.wait currentStream]
    else []
  { sync_actions := actions
    delegated :=
      (getAllocator cfg s ⟨device_type, none⟩).map fun p => ((p.1, size), p.2) }

/-- Modelled from the spec: the concrete `CacheAllocator` algorithm (the
built-in "BF" algorithm and its peers) is not among these sources — only
its registry, proxy and `recordStream` callers are. Per spec §4.4/§5, a
stream is an ordered work queue with a completion clock: `enqueued` counts
work items issued on it and `retired` counts those the device has finished
(a stream "has retired all work enqueued before point `p`" when
`p ≤ retired`). -/
structure StreamState where
  enqueued : Nat
  retired : Nat
deriving DecidableEq, Repr

/-- Modelled from the spec: the observable state of one concrete caching
allocator. Blocks are identified by handles. `in_use` are blocks handed to
callers; `recorded` gives, per in-use block, its recorded-streams set as
(stream, recording point) pairs, the point being the stream's `enqueued`
clock when `recordStream` ran; `pending` are freed blocks whose recorded
streams have not yet been confirmed retired (spec: deferred reclaim is
checked, not awaited, at the next allocate); `free_pool` are blocks
confirmed reusable; `free_records` remembers, per freed block, the
recorded set frozen at free time (the history the reuse invariant speaks
about); `next_block` generates fresh handles. -/
structure CacheSim where
  streams : Nat → StreamState
  in_use : List Nat
  recorded : Nat → List (Nat × Nat)
  pending : List (Nat × List (Nat × Nat))
  free_pool : List Nat
  free_records : Nat → List (Nat × Nat)
  next_block : Nat

/-- Modelled from the spec: has every stream recorded against a freed
block retired all work enqueued before its recording point? -/
def blockReady (s : CacheSim) (recs : List (Nat × Nat)) : Bool :=
  recs.all fun r => r.2 ≤ (s.streams r.1).retired

/-- Modelled from the spec: the lazy reclaim step performed at the start of
`allocate` — move every pending freed block whose recorded streams have all
retired into the free pool; the rest stay pending. -/
def sweepPending (s : CacheSim) : CacheSim :=
  { s with
    pending := s.pending.filter fun p => !(blockReady s p.2)
    free_pool := s.free_pool ++
      (s.pending.filter fun p => blockReady s p.2).map Prod.fst }

/-- Modelled from the spec: `allocate()` — run the lazy reclaim sweep, then
hand out a block from the free pool if one is available, else a fresh block
from the device; the handed-out block starts with an empty recorded set. -/
def simAlloc (s : CacheSim) : Nat × CacheSim :=
  match (sweepPending s).free_pool with
  | b :: rest =>
      (b, { sweepPending s with
              free_pool := rest
              in_use := b :: (sweepPending s).in_use
              recorded := fun x => if x = b then [] else (sweepPending s).recorded x })
  | [] =>
      ((sweepPending s).next_block,
       { sweepPending s with
           in_use := (sweepPending s).next_block :: (sweepPending s).in_use
           recorded := fun x =>
             if x = (sweepPending s).next_block then []
             else (sweepPending s).recorded x
           next_block := (sweepPending s).next_block + 1 })

/-- Modelled from the spec: the events driving one caching allocator —
device work being enqueued on / retired by a stream, `recordStream` on an
in-use block, `free` of an in-use block, and `allocate`. -/
inductive SimOp where
  | enqueue (stream : Nat)
  | retire (stream : Nat)
  | record (block : Nat) (stream : Nat)
  | free (block : Nat)
  | alloc
deriving DecidableEq, Repr

/-- Modelled from the spec: one step of the caching-allocator model. -/
def simStep (s : CacheSim) : SimOp → CacheSim
  | SimOp.enqueue st =>
      { s with streams := fun x =>
          if x = st then ⟨(s.streams st).enqueued + 1, (s.streams st).retired⟩
          else s.streams x }
  | SimOp.retire st =>
      { s with streams := fun x =>
          if x = st then
            if (s.streams st).retired < (s.streams st).enqueued then
              ⟨(s.streams st).enqueued, (s.streams st).retired + 1⟩
            else s.streams st
          else s.streams x }
  | SimOp.record b st =>
      if b ∈ s.in_use then
        { s with recorded := fun x =>
            if x = b then (st, (s.streams st).enqueued) :: s.recorded b
            else s.recorded x }
      else s
  | SimOp.free b =>
      if b ∈ s.in_use then
        { s with
            in_use := s.in_use.filter (· ≠ b)
            pending := (b, s.recorded b) :: s.pending
            free_records := fun x => if x = b then s.recorded b else s.free_records x
            recorded := fun x => if x = b then [] else s.recorded x }
      else s
  | SimOp.alloc => (simAlloc s).2

/-- Modelled from the spec: run a sequence of events from a state. -/
def runOps (s : CacheSim) (ops : List SimOp) : CacheSim :=
  ops.foldl simStep s

/-- Modelled from the spec: the allocator state at creation — no blocks
held, all stream clocks at zero. -/
def initSim : CacheSim :=
  { streams := fun _ => ⟨0, 0⟩
    in_use := []
    recorded := fun _ => []
    pending := []
    free_pool := []
    free_records := fun _ => []
    next_block := 0 }

/-- The C9 invariant: every allocator in `used_allocator` was created for
the accelerator device class. -/
def usedOnlyAccel (s : AllocState) : Prop :=
  ∀ a ∈ s.used_allocator, a.cls = DIPU_DEVICE_TYPE

/-- The block handles of the pending (freed, not yet reclaimable) list. -/
def pendingIds (s : CacheSim) : List Nat :=
  s.pending.map Prod.fst

/-- The inductive invariant of the caching-allocator model. `free_ready` is
the heart of claim C2: every block sitting in the free pool already has all
its recorded streams retired past their recording points. The remaining
fields make it inductive: pending entries carry exactly the recorded set
frozen at free time; a handle occurs at most once across the free pool and
pending list; an in-use handle is in neither; and all tracked handles are
below the fresh-handle counter. -/
structure SimInv (s : CacheSim) : Prop where
  free_ready : ∀ b ∈ s.free_pool, ∀ r ∈ s.free_records b,
    r.2 ≤ (s.streams r.1).retired
  pending_records : ∀ p ∈ s.pending, s.free_records p.1 = p.2
  nodup : (s.free_pool ++ pendingIds s).Nodup
  disj : ∀ b ∈ s.in_use, b ∉ s.free_pool ∧ b ∉ pendingIds s
  bound : ∀ b, b ∈ s.in_use ∨ b ∈ s.free_pool ∨ b ∈ pendingIds s →
    b < s.next_block

/-! Concrete fixtures used by witnesses and counterexamples. -/

/-- A concrete registered constructor: device index `i` ↦ pointer `100 + i`. -/
def getterW : Nat → Nat := fun i => 100 + i

/-- A registry holding the default "BF" algorithm for the accelerator class
at priority 10. -/
def regW : Registry :=
  Registry.update Registry.empty DeviceType.dipu "BF" ⟨getterW, 10⟩

/-- A concrete configuration: 2 devices, current device 0, both algorithm
names left at the built-in default "BF". -/
def cfgW : Config := ⟨2, 0, "BF", "BF"⟩

/-- A concrete state: registry `regW`, nothing created yet. -/
def sW : AllocState :=
  { registry := regW
    used_allocator := []
    lookup_table := fun _ => none }

/-- The (allocator, state) pair produced by the first `getAllocator` call
for accelerator device 0 in state `sW`. -/
def firstGetW : Allocator × AllocState :=
  (getAllocator cfgW sW ⟨DeviceType.dipu, some 0⟩).toOption.getD
    (⟨0, DeviceType.dipu⟩, sW)

/-- Registry after registering "BF" for the accelerator class at priority 2
(used by the re-registration counterexample). -/
def regBF2 : Registry :=
  Registry.update Registry.empty DeviceType.dipu "BF" ⟨fun _ => 7, 2⟩

/-- A concrete event trace for the caching-allocator model: allocate a
block (handle 0), enqueue one work item on stream 5, record stream 5 on the
block, free the block, then let stream 5 retire its work item. -/
def opsW : List SimOp :=
  [SimOp.alloc, SimOp.enqueue 5, SimOp.record 0 5, SimOp.free 0,
   SimOp.retire 5]

/-! Helper lemmas. -/

/-- A successful `setAllocator` call leaves exactly the registered entry at
its (device class, name) key. -/
theorem setAllocator_ok_entry {reg : Registry} {name : String}
    {dt : DeviceType} {g : Nat → Nat} {p : Nat} {reg1 : Registry}
    (h : setAllocator reg name dt g p = Except.ok reg1) :
    reg1 dt name = some ⟨g, p⟩ := by
  unfold setAllocator at h
  split at h
  · injection h with h
    subst h
    simp [Registry.update]
  · split at h
    · injection h with h
      subst h
      simp [Registry.update]
    · exact Except.noConfusion h

/-- Membership after a `std::set` insertion. -/
theorem mem_insertUsed {a x : Allocator} {l : List Allocator}
    (h : x ∈ insertUsed a l) : x = a ∨ x ∈ l := by
  unfold insertUsed at h
  by_cases hm : a ∈ l
  · rw [if_pos hm] at h
    exact Or.inr h
  · rw [if_neg hm] at h
    exact List.mem_cons.mp h

/-! Claim theorems. -/

/-- C3: for every (device-class, name) pair, registering the name with
priority P1 and then registering the same name with a strictly higher
priority P2 > P1 replaces the active entry, so a subsequent resolve (the
registry lookup `createAllocator` performs) returns the constructor
registered at P2. -/
theorem setAllocator_higher_priority_replaces
    (reg : Registry) (name : String) (dt : DeviceType)
    (g1 g2 : Nat → Nat) (p1 p2 : Nat) (reg1 : Registry)
    (h1 : setAllocator reg name dt g1 p1 = Except.ok reg1)
    (hp : p1 < p2) :
    ∃ reg2, setAllocator reg1 name dt g2 p2 = Except.ok reg2 ∧
      reg2 dt name = some ⟨g2, p2⟩ := by
  have he := setAllocator_ok_entry h1
  refine ⟨reg1.update dt name ⟨g2, p2⟩, ?_, ?_⟩
  · unfold setAllocator
    rw [he]
    exact if_pos hp
  · simp [Registry.update]

/-- Witness for C3 at a concrete input: register "BF" at priority 1, then
at priority 2; the priority-2 constructor becomes the active entry. -/
theorem setAllocator_higher_priority_replaces_witness :
    ∃ reg2,
      setAllocator
          (Registry.update Registry.empty DeviceType.dipu "BF" ⟨fun _ => 7, 1⟩)
          "BF" DeviceType.dipu (fun _ => 8) 2 = Except.ok reg2 ∧
      reg2 DeviceType.dipu "BF" = some ⟨fun _ => 8, 2⟩ :=
  setAllocator_higher_priority_replaces Registry.empty "BF" DeviceType.dipu
    (fun _ => 7) (fun _ => 8) 1 2
    (Registry.update Registry.empty DeviceType.dipu "BF" ⟨fun _ => 7, 1⟩)
    rfl (by decide)

/-- Counterexample to C4 as stated: after registering "BF" at priority 2,
re-registering "BF" at the lower priority 1 is not a no-op that completes
without error — `setAllocator` raises the `TORCH_CHECK` configuration
error. -/
theorem setAllocator_lower_priority_not_noop_cex :
    setAllocator Registry.empty "BF" DeviceType.dipu (fun _ => 7) 2
        = Except.ok regBF2 ∧
    setAllocator regBF2 "BF" DeviceType.dipu (fun _ => 8) 1
        = Except.error (AllocError.conflict DeviceType.dipu "BF" 1) :=
  ⟨rfl, rfl⟩

/-- C4 (amended): registering the name with priority P2 and then
registering the same name again with priority P1 ≤ P2 fails with the
configuration error (it does not complete silently) and leaves the P2
entry active. -/
theorem setAllocator_lower_priority_keeps_entry
    (reg : Registry) (name : String) (dt : DeviceType)
    (g1 g2 : Nat → Nat) (p1 p2 : Nat) (reg1 : Registry)
    (h1 : setAllocator reg name dt g1 p2 = Except.ok reg1)
    (hp : p1 ≤ p2) :
    setAllocator reg1 name dt g2 p1
        = Except.error (AllocError.conflict dt name p1) ∧
    reg1 dt name = some ⟨g1, p2⟩ := by
  have he := setAllocator_ok_entry h1
  refine ⟨?_, he⟩
  unfold setAllocator
  rw [he]
  exact if_neg (Nat.not_lt.mpr hp)

/-- Witness for the amended C4 at a concrete input. -/
theorem setAllocator_lower_priority_keeps_entry_witness :
    setAllocator regBF2 "BF" DeviceType.dipu (fun _ => 8) 1
        = Except.error (AllocError.conflict DeviceType.dipu "BF" 1) ∧
    regBF2 DeviceType.dipu "BF" = some ⟨fun _ => 7, 2⟩ :=
  setAllocator_lower_priority_keeps_entry Registry.empty "BF"
    DeviceType.dipu (fun _ => 7) (fun _ => 8) 1 2 regBF2 rfl (by decide)

/-- C5: with an entry already registered for (device-class, name) at
priority P, registering the same name at priority P1 ≤ P fails with the
configuration error carrying the conflicting device class, name and
priority. -/
theorem setAllocator_conflict_error
    (reg : Registry) (name : String) (dt : DeviceType)
    (g g1 : Nat → Nat) (p p1 : Nat)
    (hreg : reg dt name = some ⟨g, p⟩)
    (hp : p1 ≤ p) :
    setAllocator reg name dt g1 p1
        = Except.error (AllocError.conflict dt name p1) := by
  unfold setAllocator
  rw [hreg]
  exact if_neg (Nat.not_lt.mpr hp)

/-- Witness for C5 at a concrete input. -/
theorem setAllocator_conflict_error_witness :
    setAllocator regBF2 "BF" DeviceType.dipu (fun _ => 9) 2
        = Except.error (AllocError.conflict DeviceType.dipu "BF" 2) :=
  setAllocator_conflict_error regBF2 "BF" DeviceType.dipu
    (fun _ => 7) (fun _ => 9) 2 2 rfl (by decide)

/-- A successful `getAllocator` call leaves the created (or found)
allocator in its lookup slot. -/
theorem getAllocator_ok_slot {cfg : Config} {s : AllocState} {device : Device}
    {a : Allocator} {s1 : AllocState}
    (h : getAllocator cfg s device = Except.ok (a, s1)) :
    s1.lookup_table (getDeviceIndex cfg device cfg.device_count) = some a := by
  unfold getAllocator at h
  split at h
  case _ b hl =>
    injection h with h
    rw [Prod.mk.injEq] at h
    obtain ⟨rfl, rfl⟩ := h
    exact hl
  case _ hl =>
    split at h
    case _ b s2 hc =>
      injection h with h
      rw [Prod.mk.injEq] at h
      obtain ⟨rfl, rfl⟩ := h
      simp
    case _ e hc =>
      exact Except.noConfusion h

/-- C6: whenever `getAllocator` returns an allocator, the allocator sits in
the lookup slot of the device, and calling `getAllocator` again on the
resulting state for the same device returns the identical allocator and
leaves the state untouched — the memoized instance is served without
invoking `createAllocator`, the registry or the constructor again. -/
theorem getAllocator_memoized
    (cfg : Config) (s : AllocState) (device : Device) (a : Allocator)
    (s1 : AllocState)
    (h : getAllocator cfg s device = Except.ok (a, s1)) :
    s1.lookup_table (getDeviceIndex cfg device cfg.device_count) = some a ∧
    getAllocator cfg s1 device = Except.ok (a, s1) := by
  have hs := getAllocator_ok_slot h
  refine ⟨hs, ?_⟩
  unfold getAllocator
  rw [hs]

/-- Witness for C6 at a concrete input: the first call for accelerator
device 0 in state `sW` succeeds, and the second call returns the identical
allocator and state. -/
theorem getAllocator_memoized_witness :
    firstGetW.2.lookup_table
        (getDeviceIndex cfgW ⟨DeviceType.dipu, some 0⟩ cfgW.device_count)
      = some firstGetW.1 ∧
    getAllocator cfgW firstGetW.2 ⟨DeviceType.dipu, some 0⟩
      = Except.ok (firstGetW.1, firstGetW.2) :=
  getAllocator_memoized cfgW sW ⟨DeviceType.dipu, some 0⟩
    firstGetW.1 firstGetW.2 rfl

/-- C7: when the selected algorithm name has no registry entry for the
device's class, `createAllocator` fails with the "No allocator found" error
and returns no allocator — regardless of what other algorithm names are
registered (no fallback). -/
theorem createAllocator_no_allocator_found
    (cfg : Config) (s : AllocState) (device : Device)
    (h : s.registry device.dtype (algorithmFor cfg device.dtype) = none) :
    createAllocator cfg s device
      = Except.error (AllocError.noAllocatorFound device.dtype
          cfg.device_memcaching_algorithm) := by
  unfold createAllocator
  rw [h]

/-- Witness for C7 at a concrete input: a registry holding a different
algorithm name ("OTHER") but not the selected "BF" makes allocator creation
fail rather than fall back to the other registered algorithm. -/
theorem createAllocator_no_allocator_found_witness :
    createAllocator cfgW
        { registry :=
            Registry.update Registry.empty DeviceType.dipu "OTHER" ⟨getterW, 10⟩
          used_allocator := []
          lookup_table := fun _ => none }
        ⟨DeviceType.dipu, some 0⟩
      = Except.error
          (AllocError.noAllocatorFound DeviceType.dipu "BF") :=
  createAllocator_no_allocator_found cfgW
    { registry :=
        Registry.update Registry.empty DeviceType.dipu "OTHER" ⟨getterW, 10⟩
      used_allocator := []
      lookup_table := fun _ => none }
    ⟨DeviceType.dipu, some 0⟩ rfl

/-- C8: even when the trim (resp. release) operation fails on some
allocator of the set, both global sweeps still invoke the operation on
every other cache allocator in `used_allocator` — per-allocator outcomes do
not abort the sweep. -/
theorem sweeps_isolate_failures
    (isCacheAlloc : Nat → Bool)
    (empty_cache release_all_memory : Nat → Except TrimError Unit)
    (used : List Allocator) (a b : Allocator) (e1 e2 : TrimError)
    (ha : a ∈ used) (hb : b ∈ used)
    (hbc : isCacheAlloc b.ptr = true)
    (hfail1 : empty_cache a.ptr = Except.error e1)
    (hfail2 : release_all_memory a.ptr = Except.error e2) :
    (b, empty_cache b.ptr) ∈ emptyCachedMem isCacheAlloc empty_cache used ∧
    (b, release_all_memory b.ptr)
        ∈ releaseAllDeviceMem isCacheAlloc release_all_memory used := by
  constructor
  · exact List.mem_filterMap.mpr ⟨b, hb, by rw [if_pos hbc]⟩
  · exact List.mem_filterMap.mpr ⟨b, hb, by rw [if_pos hbc]⟩

/-- Witness for C8 at a concrete input: allocator 1's operations fail, yet
allocator 2 is still swept by both sweeps. -/
theorem sweeps_isolate_failures_witness :
    ((⟨2, DeviceType.dipu⟩ : Allocator),
        (fun _ => Except.error (TrimError.failure 0) : Nat → Except TrimError Unit) 2)
      ∈ emptyCachedMem (fun _ => true)
          (fun _ => Except.error (TrimError.failure 0))
          [⟨1, DeviceType.dipu⟩, ⟨2, DeviceType.dipu⟩] ∧
    ((⟨2, DeviceType.dipu⟩ : Allocator),
        (fun _ => Except.error (TrimError.failure 1) : Nat → Except TrimError Unit) 2)
      ∈ releaseAllDeviceMem (fun _ => true)
          (fun _ => Except.error (TrimError.failure 1))
          [⟨1, DeviceType.dipu⟩, ⟨2, DeviceType.dipu⟩] :=
  sweeps_isolate_failures (fun _ => true)
    (fun _ => Except.error (TrimError.failure 0))
    (fun _ => Except.error (TrimError.failure 1))
    [⟨1, DeviceType.dipu⟩, ⟨2, DeviceType.dipu⟩]
    ⟨1, DeviceType.dipu⟩ ⟨2, DeviceType.dipu⟩
    (TrimError.failure 0) (TrimError.failure 1)
    (by simp) (by simp) rfl rfl rfl

/-- C10: `recordStream` on a data pointer whose context is null does
nothing — it returns normally with the context unchanged and raises no
error. -/
theorem recordStream_null_context_noop (stream : DIPUStream) :
    recordStream none stream = none := rfl

/-- C1: `DIPUDeviceCachingProxy::allocate` records an event on the default
stream and makes the current stream wait on it exactly when the current
stream differs from the default stream (no synchronization otherwise), and
in both cases delegates the allocation to the allocator obtained from
`getAllocator` for the proxy's device type. -/
theorem proxy_allocate_stream_ordering
    (device_type : DeviceType) (currentStream defaultStream : DIPUStream)
    (cfg : Config) (s : AllocState) (size : Nat) :
    (currentStream ≠ defaultStream →
      (DIPUDeviceCachingProxy.allocate device_type currentStream defaultStream
          cfg s size).sync_actions
        = [SyncAction.record defaultStream, SyncAction.wait currentStream]) ∧
    (currentStream = defaultStream →
      (DIPUDeviceCachingProxy.allocate device_type currentStream defaultStream
          cfg s size).sync_actions = []) ∧
    (DIPUDeviceCachingProxy.allocate device_type currentStream defaultStream
        cfg s size).delegated
      = (getAllocator cfg s ⟨device_type, none⟩).map
          (fun p => ((p.1, size), p.2)) := by
  refine ⟨?_, ?_, rfl⟩
  · intro hne
    simp [DIPUDeviceCachingProxy.allocate, hne]
  · intro heq
    simp [DIPUDeviceCachingProxy.allocate, heq]

/-- Witness for C1 at a concrete input: allocating on stream 1 while the
default stream is 0 issues exactly a record on stream 0 followed by a wait
on stream 1. -/
theorem proxy_allocate_stream_ordering_witness :
    (DIPUDeviceCachingProxy.allocate DeviceType.dipu ⟨1⟩ ⟨0⟩ cfgW sW
        16).sync_actions
      = [SyncAction.record ⟨0⟩, SyncAction.wait ⟨1⟩] :=
  (proxy_allocate_stream_ordering DeviceType.dipu ⟨1⟩ ⟨0⟩ cfgW sW 16).1
    (by decide)

/-- `createAllocator` preserves the C9 invariant: it only ever inserts into
`used_allocator` on the accelerator branch, where the created allocator's
class is the accelerator class. -/
theorem createAllocator_preserves_usedOnlyAccel {cfg : Config}
    {s : AllocState} {device : Device} {a : Allocator} {s1 : AllocState}
    (hinv : usedOnlyAccel s)
    (h : createAllocator cfg s device = Except.ok (a, s1)) :
    usedOnlyAccel s1 := by
  unfold createAllocator at h
  split at h
  case _ entry hr =>
    split at h
    case isTrue hd =>
      injection h with h
      rw [Prod.mk.injEq] at h
      obtain ⟨rfl, rfl⟩ := h
      intro x hx
      rcases mem_insertUsed hx with rfl | hx2
      · exact hd
      · exact hinv x hx2
    case isFalse hd =>
      injection h with h
      rw [Prod.mk.injEq] at h
      obtain ⟨rfl, rfl⟩ := h
      exact hinv
  case _ hr =>
    exact Except.noConfusion h

/-- `getAllocator` preserves the C9 invariant: it either serves a memoized
allocator (state untouched) or defers to `createAllocator` and only updates
the lookup table. -/
theorem getAllocator_preserves_usedOnlyAccel {cfg : Config}
    {s : AllocState} {device : Device} {a : Allocator} {s1 : AllocState}
    (hinv : usedOnlyAccel s)
    (h : getAllocator cfg s device = Except.ok (a, s1)) :
    usedOnlyAccel s1 := by
  unfold getAllocator at h
  split at h
  case _ b hl =>
    injection h with h
    rw [Prod.mk.injEq] at h
    obtain ⟨rfl, rfl⟩ := h
    exact hinv
  case _ hl =>
    split at h
    case _ b s2 hc =>
      injection h with h
      rw [Prod.mk.injEq] at h
      obtain ⟨rfl, rfl⟩ := h
      exact fun x hx => createAllocator_preserves_usedOnlyAccel hinv hc x hx
    case _ e hc =>
      exact Except.noConfusion h

/-- C9: `used_allocator` holds only accelerator-class allocators — it is
empty at startup, `createAllocator` and `getAllocator` preserve the
property (a host/pinned allocator is never inserted), and therefore both
global sweeps only ever touch accelerator-class allocators. -/
theorem used_allocator_only_accelerator
    (cfg : Config) (s : AllocState) (device : Device) (a : Allocator)
    (s1 : AllocState) (isCacheAlloc : Nat → Bool)
    (fe fr : Nat → Except TrimError Unit)
    (hinv : usedOnlyAccel s) :
    usedOnlyAccel initAllocState ∧
    (createAllocator cfg s device = Except.ok (a, s1) → usedOnlyAccel s1) ∧
    (getAllocator cfg s device = Except.ok (a, s1) → usedOnlyAccel s1) ∧
    (∀ x ∈ emptyCachedMem isCacheAlloc fe s.used_allocator,
        x.1.cls = DIPU_DEVICE_TYPE) ∧
    (∀ x ∈ releaseAllDeviceMem isCacheAlloc fr s.used_allocator,
        x.1.cls = DIPU_DEVICE_TYPE) := by
  refine ⟨?_, ?_, ?_, ?_, ?_⟩
  · intro x hx
    exact absurd hx (List.not_mem_nil x)
  · exact fun h => createAllocator_preserves_usedOnlyAccel hinv h
  · exact fun h => getAllocator_preserves_usedOnlyAccel hinv h
  · intro x hx
    obtain ⟨y, hy, hfy⟩ := List.mem_filterMap.mp hx
    by_cases hc : isCacheAlloc y.ptr
    · rw [if_pos hc] at hfy
      injection hfy with hfy
      rw [← hfy]
      exact hinv y hy
    · rw [if_neg hc] at hfy
      exact Option.noConfusion hfy
  · intro x hx
    obtain ⟨y, hy, hfy⟩ := List.mem_filterMap.mp hx
    by_cases hc : isCacheAlloc y.ptr
    · rw [if_pos hc] at hfy
      injection hfy with hfy
      rw [← hfy]
      exact hinv y hy
    · rw [if_neg hc] at hfy
      exact Option.noConfusion hfy

/-- Witness for C9 at a concrete input: in the state reached by the first
accelerator `getAllocator` call, whose used set is nonempty, all
conjuncts hold. -/
theorem used_allocator_only_accelerator_witness :
    usedOnlyAccel initAllocState ∧
    (createAllocator cfgW firstGetW.2 ⟨DeviceType.cpu, none⟩
        = Except.ok (⟨100, DeviceType.cpu⟩, firstGetW.2) →
      usedOnlyAccel firstGetW.2) ∧
    (getAllocator cfgW firstGetW.2 ⟨DeviceType.cpu, none⟩
        = Except.ok (⟨100, DeviceType.cpu⟩, firstGetW.2) →
      usedOnlyAccel firstGetW.2) ∧
    (∀ x ∈ emptyCachedMem (fun _ => true)
          (fun _ => Except.ok ()) firstGetW.2.used_allocator,
        x.1.cls = DIPU_DEVICE_TYPE) ∧
    (∀ x ∈ releaseAllDeviceMem (fun _ => true)
          (fun _ => Except.ok ()) firstGetW.2.used_allocator,
        x.1.cls = DIPU_DEVICE_TYPE) :=
  used_allocator_only_accelerator cfgW firstGetW.2 ⟨DeviceType.cpu, none⟩
    ⟨100, DeviceType.cpu⟩ firstGetW.2 (fun _ => true)
    (fun _ => Except.ok ()) (fun _ => Except.ok ())
    (by
      intro x hx
      have hx2 : x ∈ [(⟨100, DeviceType.dipu⟩ : Allocator)] := hx
      rw [List.mem_singleton] at hx2
      rw [hx2]
      rfl)

/-- Unfolding `blockReady`: a ready recorded set has every stream retired
past its recording point. -/
theorem blockReady_spec {s : CacheSim} {recs : List (Nat × Nat)}
    (h : blockReady s recs = true) :
    ∀ r ∈ recs, r.2 ≤ (s.streams r.1).retired := by
  simp only [blockReady, List.all_eq_true, decide_eq_true_eq] at h
  exact h

/-- The initial allocator state satisfies the inductive invariant. -/
theorem initSim_inv : SimInv initSim := by
  constructor
  · intro b hb
    exact absurd hb (List.not_mem_nil b)
  · intro p hp
    exact absurd hp (List.not_mem_nil p)
  · exact List.nodup_nil
  · intro b hb
    exact absurd hb (List.not_mem_nil b)
  · intro b hb
    rcases hb with h | h | h
    · exact absurd h (List.not_mem_nil b)
    · exact absurd h (List.not_mem_nil b)
    · exact absurd h (List.not_mem_nil b)

/-- Transfer of the invariant along a step that leaves every block list and
the free records unchanged and only lets streams retire more work. -/
theorem simInv_of_streams_mono {s s2 : CacheSim} (hinv : SimInv s)
    (hs : s2.in_use = s.in_use) (hfp : s2.free_pool = s.free_pool)
    (hp : s2.pending = s.pending) (hfr : s2.free_records = s.free_records)
    (hnb : s2.next_block = s.next_block)
    (hmono : ∀ x, (s.streams x).retired ≤ (s2.streams x).retired) :
    SimInv s2 := by
  constructor
  · intro b hb r hr
    rw [hfp] at hb
    rw [hfr] at hr
    exact le_trans (hinv.free_ready b hb r hr) (hmono r.1)
  · intro p hp2
    rw [hp] at hp2
    rw [hfr]
    exact hinv.pending_records p hp2
  · rw [hfp]
    unfold pendingIds
    rw [hp]
    exact hinv.nodup
  · intro b hb
    rw [hs] at hb
    rw [hfp]
    unfold pendingIds
    rw [hp]
    exact hinv.disj b hb
  · intro b hb
    rw [hnb]
    apply hinv.bound b
    rw [hs, hfp] at hb
    unfold pendingIds at hb
    rw [hp] at hb
    exact hb

/-- The lazy reclaim sweep preserves the inductive invariant: it moves into
the free pool exactly the pending blocks whose recorded streams have all
retired. -/
theorem sweepPending_inv {s : CacheSim} (hinv : SimInv s) :
    SimInv (sweepPending s) := by
  constructor
  · intro b hb r hr
    have hb2 : b ∈ s.free_pool ++
        ((s.pending.filter fun p => blockReady s p.2).map Prod.fst) := hb
    have hr2 : r ∈ s.free_records b := hr
    rcases List.mem_append.mp hb2 with h1 | h2
    · exact hinv.free_ready b h1 r hr2
    · obtain ⟨p, hp, hpb⟩ := List.mem_map.mp h2
      have hpf := List.mem_filter.mp hp
      have hrec := hinv.pending_records p hpf.1
      have hr3 : r ∈ p.2 := by
        rw [← hrec, hpb]
        exact hr2
      exact blockReady_spec hpf.2 r hr3
  · intro p hp
    have hp2 : p ∈ s.pending.filter (fun p => !(blockReady s p.2)) := hp
    exact hinv.pending_records p (List.mem_filter.mp hp2).1
  · show (((s.free_pool ++
        ((s.pending.filter fun p => blockReady s p.2).map Prod.fst)) ++
        ((s.pending.filter fun p => !(blockReady s p.2)).map Prod.fst))).Nodup
    have hperm :=
      (List.filter_append_perm (fun p => blockReady s p.2) s.pending).map Prod.fst
    rw [List.map_append] at hperm
    have h2 := List.Perm.append_left s.free_pool hperm
    have h3 := h2.nodup_iff.mpr hinv.nodup
    rw [← List.append_assoc] at h3
    exact h3
  · intro b hb
    have hb2 : b ∈ s.in_use := hb
    have hd := hinv.disj b hb2
    constructor
    · intro hmem
      have hmem2 : b ∈ s.free_pool ++
          ((s.pending.filter fun p => blockReady s p.2).map Prod.fst) := hmem
      rcases List.mem_append.mp hmem2 with h1 | h2
      · exact hd.1 h1
      · obtain ⟨p, hp, hpb⟩ := List.mem_map.mp h2
        exact hd.2 (by rw [← hpb]
                       exact List.mem_map.mpr ⟨p, (List.mem_filter.mp hp).1, rfl⟩)
    · intro hmem
      have hmem2 : b ∈ (s.pending.filter fun p => !(blockReady s p.2)).map Prod.fst :=
        hmem
      obtain ⟨p, hp, hpb⟩ := List.mem_map.mp hmem2
      exact hd.2 (by rw [← hpb]
                     exact List.mem_map.mpr ⟨p, (List.mem_filter.mp hp).1, rfl⟩)
  · intro b hb
    show b < s.next_block
    rcases hb with h1 | h2 | h3
    · exact hinv.bound b (Or.inl h1)
    · have h2b : b ∈ s.free_pool ++
          ((s.pending.filter fun p => blockReady s p.2).map Prod.fst) := h2
      rcases List.mem_append.mp h2b with ha | hc
      · exact hinv.bound b (Or.inr (Or.inl ha))
      · obtain ⟨p, hp, hpb⟩ := List.mem_map.mp hc
        exact hinv.bound b (Or.inr (Or.inr (by
          rw [← hpb]
          exact List.mem_map.mpr ⟨p, (List.mem_filter.mp hp).1, rfl⟩)))
    · have h3b : b ∈ (s.pending.filter fun p => !(blockReady s p.2)).map Prod.fst :=
        h3
      obtain ⟨p, hp, hpb⟩ := List.mem_map.mp h3b
      exact hinv.bound b (Or.inr (Or.inr (by
        rw [← hpb]
        exact List.mem_map.mpr ⟨p, (List.mem_filter.mp hp).1, rfl⟩)))

/-- Every step of the caching-allocator model preserves the inductive
invariant. -/
theorem simStep_inv {s : CacheSim} (hinv : SimInv s) (op : SimOp) :
    SimInv (simStep s op) := by
  cases op with
  | enqueue st =>
      simp only [simStep]
      refine simInv_of_streams_mono hinv rfl rfl rfl rfl rfl ?_
      intro x
      by_cases hx : x = st
      · subst hx
        simp
      · simp [hx]
  | retire st =>
      simp only [simStep]
      refine simInv_of_streams_mono hinv rfl rfl rfl rfl rfl ?_
      intro x
      by_cases hx : x = st
      · subst hx
        by_cases hlt : (s.streams x).retired < (s.streams x).enqueued
        · simp [hlt]
        · simp [hlt]
      · simp [hx]
  | record b st =>
      simp only [simStep]
      by_cases hb : b ∈ s.in_use
      · rw [if_pos hb]
        exact simInv_of_streams_mono hinv rfl rfl rfl rfl rfl
          (fun x => Nat.le_refl _)
      · rw [if_neg hb]
        exact hinv
  | free b =>
      simp only [simStep]
      by_cases hb : b ∈ s.in_use
      · rw [if_pos hb]
        have hd := hinv.disj b hb
        constructor
        · intro c hc r hr
          have hc2 : c ∈ s.free_pool := hc
          have hcb : c ≠ b := fun he => hd.1 (he ▸ hc2)
          have hr2 : r ∈ (if c = b then s.recorded b else s.free_records c) := hr
          rw [if_neg hcb] at hr2
          exact hinv.free_ready c hc2 r hr2
        · intro p hp
          have hp2 : p ∈ (b, s.recorded b) :: s.pending := hp
          show (if p.1 = b then s.recorded b else s.free_records p.1) = p.2
          rcases List.mem_cons.mp hp2 with rfl | hold
          · rw [if_pos rfl]
          · have hpb : p.1 ≠ b := by
              intro he
              exact hd.2 (by rw [← he]
                             exact List.mem_map.mpr ⟨p, hold, rfl⟩)
            rw [if_neg hpb]
            exact hinv.pending_records p hold
        · show (s.free_pool ++ (b :: pendingIds s)).Nodup
          refine List.nodup_middle.mpr ?_
          refine List.nodup_cons.mpr ⟨?_, hinv.nodup⟩
          intro hmem
          rcases List.mem_append.mp hmem with h1 | h2
          · exact hd.1 h1
          · exact hd.2 h2
        · intro c hc
          have hc2 : c ∈ s.in_use.filter (fun x => x ≠ b) := hc
          have hcf := List.mem_filter.mp hc2
          have hcb : c ≠ b := of_decide_eq_true hcf.2
          have hcd := hinv.disj c hcf.1
          refine ⟨hcd.1, ?_⟩
          show c ∉ b :: pendingIds s
          intro hmem
          rcases List.mem_cons.mp hmem with h1 | h2
          · exact hcb h1
          · exact hcd.2 h2
        · intro c hc
          show c < s.next_block
          rcases hc with h1 | h2 | h3
          · have h1b : c ∈ s.in_use.filter (fun x => x ≠ b) := h1
            exact hinv.bound c (Or.inl (List.mem_filter.mp h1b).1)
          · exact hinv.bound c (Or.inr (Or.inl h2))
          · have h3b : c ∈ b :: pendingIds s := h3
            rcases List.mem_cons.mp h3b with rfl | h4
            · exact hinv.bound c (Or.inl hb)
            · exact hinv.bound c (Or.inr (Or.inr h4))
      · rw [if_neg hb]
        exact hinv
  | alloc =>
      simp only [simStep]
      have hsw := sweepPending_inv hinv
      unfold simAlloc
      rcases hfp : (sweepPending s).free_pool with _ | ⟨c, rest⟩
      · constructor
        · intro d hd r hr
          exact hsw.free_ready d hd r hr
        · intro p hp
          exact hsw.pending_records p hp
        · exact hsw.nodup
        · intro d hd
          have hd2 : d ∈ (sweepPending s).next_block :: (sweepPending s).in_use :=
            hd
          rcases List.mem_cons.mp hd2 with rfl | hin
          · constructor
            · intro hmem
              exact absurd (hsw.bound _ (Or.inr (Or.inl hmem))) (Nat.lt_irrefl _)
            · intro hmem
              exact absurd (hsw.bound _ (Or.inr (Or.inr hmem))) (Nat.lt_irrefl _)
          · exact hsw.disj d hin
        · intro d hd
          show d < (sweepPending s).next_block + 1
          rcases hd with h1 | h2 | h3
          · have h1b : d ∈ (sweepPending s).next_block :: (sweepPending s).in_use :=
              h1
            rcases List.mem_cons.mp h1b with rfl | hin
            · exact Nat.lt_succ_self _
            · exact Nat.lt_succ_of_lt (hsw.bound d (Or.inl hin))
          · exact Nat.lt_succ_of_lt (hsw.bound d (Or.inr (Or.inl h2)))
          · exact Nat.lt_succ_of_lt (hsw.bound d (Or.inr (Or.inr h3)))
      · have hn := hsw.nodup
        rw [hfp] at hn
        have hcn := List.nodup_cons.mp hn
        constructor
        · intro d hd r hr
          have hd2 : d ∈ rest := hd
          have hdp : d ∈ (sweepPending s).free_pool := by
            rw [hfp]
            exact List.mem_cons_of_mem c hd2
          exact hsw.free_ready d hdp r hr
        · intro p hp
          exact hsw.pending_records p hp
        · exact hcn.2
        · intro d hd
          have hd2 : d ∈ c :: (sweepPending s).in_use := hd
          rcases List.mem_cons.mp hd2 with rfl | hin
          · constructor
            · intro hmem
              exact hcn.1 (List.mem_append.mpr (Or.inl hmem))
            · intro hmem
              exact hcn.1 (List.mem_append.mpr (Or.inr hmem))
          · have hdd := hsw.disj d hin
            constructor
            · intro hmem
              exact hdd.1 (by rw [hfp]
                              exact List.mem_cons_of_mem c hmem)
            · exact hdd.2
        · intro d hd
          show d < (sweepPending s).next_block
          rcases hd with h1 | h2 | h3
          · have h1b : d ∈ c :: (sweepPending s).in_use := h1
            rcases List.mem_cons.mp h1b with rfl | hin
            · exact hsw.bound d (Or.inr (Or.inl (by
                rw [hfp]
                exact List.mem_cons_self _ _)))
            · exact hsw.bound d (Or.inl hin)
          · exact hsw.bound d (Or.inr (Or.inl (by
              rw [hfp]
              exact List.mem_cons_of_mem c h2)))
          · exact hsw.bound d (Or.inr (Or.inr h3))

/-- The invariant holds in every reachable state of the model. -/
theorem runOps_inv (ops : List SimOp) : SimInv (runOps initSim ops) := by
  suffices h : ∀ s, SimInv s → SimInv (runOps s ops) from h initSim initSim_inv
  induction ops with
  | nil => exact fun s hs => hs
  | cons op rest ih => exact fun s hs => ih (simStep s op) (simStep_inv hs op)

/-- C2: in every reachable state of the caching-allocator model, a block
that has been freed is never handed to a new caller from the free pool
until every stream in its recorded-streams set (as frozen at free time) has
retired all work enqueued before its recording point. `b < next_block`
states that the handle returned by `allocate` is a previously created —
hence, since it comes out of the free pool, previously freed — block rather
than fresh device memory. -/
theorem freed_block_not_reused_until_streams_retired
    (ops : List SimOp) (b : Nat) (s1 : CacheSim)
    (halloc : simAlloc (runOps initSim ops) = (b, s1))
    (hreused : b < (runOps initSim ops).next_block) :
    ∀ r ∈ (runOps initSim ops).free_records b,
      r.2 ≤ ((runOps initSim ops).streams r.1).retired := by
  have hinv := runOps_inv ops
  have hsw := sweepPending_inv hinv
  unfold simAlloc at halloc
  rcases hfp : (sweepPending (runOps initSim ops)).free_pool with _ | ⟨c, rest⟩
  · rw [hfp] at halloc
    have h1 := congrArg Prod.fst halloc
    have h1b : (runOps initSim ops).next_block = b := h1
    rw [← h1b] at hreused
    exact absurd hreused (Nat.lt_irrefl _)
  · rw [hfp] at halloc
    have h1 := congrArg Prod.fst halloc
    have hcb : c = b := h1
    subst hcb
    intro r hr
    have hmem : c ∈ (sweepPending (runOps initSim ops)).free_pool := by
      rw [hfp]
      exact List.mem_cons_self _ _
    exact hsw.free_ready c hmem r hr

/-- Witness for C2 at a concrete trace (`opsW`): block 0 is allocated,
recorded against stream 5, freed, and only after stream 5 retires does the
next allocate hand block 0 out again — at that point stream 5 has retired
past the recording point. -/
theorem freed_block_not_reused_until_streams_retired_witness :
    1 ≤ ((runOps initSim opsW).streams 5).retired :=
  freed_block_not_reused_until_streams_retired opsW 0
    (simAlloc (runOps initSim opsW)).2 rfl (by decide) (5, 1) (by decide)

end DIPUAlloc
